import Mathlib

/-!
Verification of the WEVT template-cache subsystem of `pyevtx-rs`.

The development shallowly embeds the Rust sources `src/wevt_cache.rs` and
`src/wevt_manifest.rs`.  Byte buffers are `List Nat`, Rust `usize` saturating
arithmetic is `satAdd`, Python exceptions are the `PyException` structure, and
external collaborators from the `evtx_rs` crate (the CRIM byte parser, the
resource extractor and the BinXML renderer) are passed in as explicit function
arguments.  Collaborators whose behaviour the claims depend on but whose code
is not part of this repository (`normalize_guid`, the `.wevtcache` file codec)
are modelled from the specification and marked as such in their doc comments.
-/

namespace Spec2Proof

/-- Largest value of a 64-bit Rust `usize`. -/
def USIZE_MAX : Nat := 2 ^ 64 - 1

/-- Rust `usize::saturating_add` on a 64-bit target. -/
def satAdd (a b : Nat) : Nat := min (a + b) USIZE_MAX

/-- The Python exception classes raised by the binding layer
(`PyTypeError`, `PyValueError`, `PyKeyError`, `PyRuntimeError`,
`PyIOError`, `PyFileNotFoundError`). -/
inductive PyErrClass where
  | typeError
  | valueError
  | keyError
  | runtimeError
  | ioError
  | fileNotFoundError
deriving DecidableEq

/-- A raised Python exception: its class and its message. -/
structure PyException where
  cls : PyErrClass
  msg : String
deriving DecidableEq

/-- ASCII-lowercase a character list. -/
def toLowerL (cs : List Char) : List Char := cs.map Char.toLower

/-- ASCII-lowercase a string (the string functions of this development work
on the character list so that concrete instances evaluate). -/
def lowerStr (s : String) : String := String.mk (toLowerL s.data)

/-- Split a character list on a separator character; like Rust's
`str::split`, adjacent separators and edge separators yield empty pieces. -/
def splitOnChar (sep : Char) (cs : List Char) : List (List Char) :=
  match cs with
  | [] => [[]]
  | c :: rest =>
    let r := splitOnChar sep rest
    if c = sep then [] :: r
    else
      match r with
      | [] => [[c]]
      | h :: t => (c :: h) :: t

/-- Strip one surrounding pair of braces from a character list: a leading
`\x7b` is removed, then a trailing `\x7d` is removed. -/
def stripBracesL (cs : List Char) : List Char :=
  let cs1 := match cs with
    | [] => []
    | c :: rest => if c = '\x7b' then rest else c :: rest
  if cs1.getLast? = some '\x7d' then cs1.dropLast else cs1

/-- Modelled from the spec: `normalize_guid` is the external collaborator
`evtx_rs::wevt_templates::normalize_guid`, whose code is not part of this
repository.  The spec requires that "All GUID identities are normalized to one
canonical textual form before use as a key or for equality; two textual GUIDs
that differ only by case or brace style must compare equal".  The canonical
form strips the surrounding braces and lowercases the text. -/
def normalize_guid (s : String) : String :=
  String.mk (toLowerL (stripBracesL s.data))

/-- One TEMP definition as surfaced by the external CRIM parser: its byte
offset and size inside the manifest buffer and its textual GUID
(`tpl.offset`, `tpl.size`, `tpl.guid` in `add_crim_blob`). -/
structure TemplateDef where
  offset : Nat
  size : Nat
  guid : String
deriving DecidableEq

/-- One event definition as surfaced by the external CRIM parser
(`ev.identifier`, `ev.version`, `ev.template_offset`). -/
structure EventDef where
  identifier : Nat
  version : Nat
  template_offset : Option Nat
deriving DecidableEq

/-- One provider of a parsed CRIM manifest.  The Rust `events`/`templates`
tables are `Option`s of tables; an absent table is modelled as `[]`. -/
structure ProviderDef where
  guid : String
  events : List EventDef
  templates : List TemplateDef
deriving DecidableEq

/-- A parsed CRIM manifest: its ordered provider list. -/
structure CrimManifest where
  providers : List ProviderDef
deriving DecidableEq

/-- Modelled from the spec: `provider.template_by_offset` is part of the
external `evtx_rs` manifest model ("O(1) via a precomputed offset→index map;
absence is a normal (non-error) empty result").  The owned analogue in
`src/wevt_manifest.rs` builds the map by insertion so a duplicate offset keeps
the last template; we model the lookup accordingly. -/
def template_by_offset (p : ProviderDef) (off : Nat) : Option TemplateDef :=
  p.templates.reverse.find? (fun t => t.offset == off)

/-- The state of a `PyWevtCache` (`src/wevt_cache.rs`): the
`(provider guid, event id, version) → template guid` index, the
`template guid → raw bytes` index and the ordered list of ingested raw blobs.
The Rust `HashMap`s are modelled as association lists whose most recent
insertion sits at the front; `List.lookup` returns the most recent binding,
which matches `HashMap::insert` overwrite semantics. -/
structure PyWevtCache where
  event_to_template_guid : List ((String × Nat × Nat) × String)
  temps_by_guid : List (String × List Nat)
  resources : List (List Nat)
deriving DecidableEq

/-- `PyWevtCache::new`. -/
def PyWevtCache.new : PyWevtCache := ⟨[], [], []⟩

/-- `PyWevtCache::insert_temp`: normalize the GUID and overwrite the
template-bytes binding (the mirror copy held by the inner `WevtCache` stores
the same associations and is not modelled separately). -/
def insert_temp (c : PyWevtCache) (template_guid : String) (temp_bytes : List Nat) : PyWevtCache :=
  { c with temps_by_guid := (normalize_guid template_guid, temp_bytes) :: c.temps_by_guid }

/-- Rust slice `data[start..stop]` of a byte buffer. -/
def sliceBytes (data : List Nat) (start stop : Nat) : List Nat :=
  (data.take stop).drop start

/-- The event loop of `add_crim_blob`: for every event whose template offset
resolves within the same provider, record the
`(provider guid, event id, version) → template guid` mapping. -/
def processEvents (provider_guid : String) (p : ProviderDef) (evs : List EventDef)
    (c : PyWevtCache) : PyWevtCache :=
  match evs with
  | [] => c
  | ev :: rest =>
    let tg := (ev.template_offset.bind (template_by_offset p)).map
      (fun t => normalize_guid t.guid)
    let c1 := match tg with
      | some g =>
        { c with event_to_template_guid :=
            ((provider_guid, ev.identifier, ev.version), g) :: c.event_to_template_guid }
      | none => c
    processEvents provider_guid p rest c1

/-- The template loop of `add_crim_blob`: bounds-check each TEMP byte range
against the blob, slice it and insert it; the template counter is bumped with
`usize::saturating_add`.  On a bounds failure the partially updated cache is
kept (the Rust method mutates `&mut self`) and the error is reported. -/
def processTemplates (data : List Nat) (tpls : List TemplateDef) (c : PyWevtCache)
    (count : Nat) : PyWevtCache × Except PyException Nat :=
  match tpls with
  | [] => (c, .ok count)
  | tpl :: rest =>
    let stop := satAdd tpl.offset tpl.size
    if stop > data.length then
      (c, .error ⟨.runtimeError, "TEMP slice out of bounds while building cache"⟩)
    else
      processTemplates data rest
        (insert_temp c tpl.guid (sliceBytes data tpl.offset stop)) (satAdd count 1)

/-- The provider loop of `add_crim_blob`: per provider, first the event
mappings, then the template table. -/
def processProviders (data : List Nat) (ps : List ProviderDef) (c : PyWevtCache)
    (count : Nat) : PyWevtCache × Except PyException Nat :=
  match ps with
  | [] => (c, .ok count)
  | p :: rest =>
    let provider_guid := normalize_guid p.guid
    let c1 := processEvents provider_guid p p.events c
    match processTemplates data p.templates c1 count with
    | (c2, .ok count1) => processProviders data rest c2 count1
    | (c2, .error e) => (c2, .error e)

/-- `PyWevtCache::add_crim_blob`.  The external `CrimManifest::parse`
collaborator is passed in as `parseCrim`; a parse failure becomes a
`PyRuntimeError`.  On parse success the raw blob is appended to `resources`
before the providers are processed, exactly as in the Rust. -/
def add_crim_blob (parseCrim : List Nat → Except String CrimManifest)
    (c : PyWevtCache) (data : List Nat) : PyWevtCache × Except PyException Nat :=
  match parseCrim data with
  | .error e => (c, .error ⟨.runtimeError, e⟩)
  | .ok manifest =>
    let c1 := { c with resources := c.resources ++ [data] }
    processProviders data manifest.providers c1 0

/-- `PyWevtCache::resolve_template_guid`: normalize the provider GUID and look
the triple up; an absent key is a `PyKeyError`. -/
def resolve_template_guid (c : PyWevtCache) (provider_guid : String)
    (event_id : Nat) (version : Nat) : Except PyException String :=
  match c.event_to_template_guid.lookup (normalize_guid provider_guid, event_id, version) with
  | some g => .ok g
  | none => .error ⟨.keyError,
      "No template_guid found for provider_guid=" ++ provider_guid ++
      " event_id=" ++ toString event_id ++ " version=" ++ toString version⟩

/-- The `template identity → raw template bytes` read operation of the cache
(spec §4.2 `template_bytes`); in the Rust it is the `temps_by_guid` lookup
performed by `render_template_xml` and `render_record_xml`. -/
def template_bytes (c : PyWevtCache) (template_guid : String) : Option (List Nat) :=
  c.temps_by_guid.lookup (normalize_guid template_guid)

/-- The loop of `PyWevtCache::add_pe_file` over the WEVT resources extracted
from one PE file: each resource blob is ingested, and the per-blob counts are
accumulated with `usize::saturating_add`.  The first error aborts. -/
def add_pe_file_resources (parseCrim : List Nat → Except String CrimManifest)
    (c : PyWevtCache) (resources : List (List Nat)) (count : Nat) :
    PyWevtCache × Except PyException Nat :=
  match resources with
  | [] => (c, .ok count)
  | r :: rest =>
    match add_crim_blob parseCrim c r with
    | (c1, .ok n) => add_pe_file_resources parseCrim c1 rest (satAdd count n)
    | (c1, .error e) => (c1, .error e)

/-- Ingest a sequence of raw CRIM blobs in order, aborting at the first
failure; this is the loop of `load_wevtcache_file` (which discards the
per-blob counts). -/
def ingestAll (parseCrim : List Nat → Except String CrimManifest)
    (c : PyWevtCache) (blobs : List (List Nat)) : PyWevtCache × Except PyException Unit :=
  match blobs with
  | [] => (c, .ok ())
  | b :: rest =>
    match add_crim_blob parseCrim c b with
    | (c1, .ok _) => ingestAll parseCrim c1 rest
    | (c1, .error e) => (c1, .error e)

/-! ## The `.wevtcache` file codec and the filesystem-facing operations -/

/-- The `k` little-endian bytes of `n`. -/
def leBytes : Nat → Nat → List Nat
  | 0, _ => []
  | k + 1, n => n % 256 :: leBytes k (n / 256)

/-- The value of a little-endian byte list. -/
def leVal : List Nat → Nat
  | [] => 0
  | b :: bs => b + 256 * leVal bs

/-- The error cases of the cache-file codec (spec §6 and the
`WevtCacheFileError` variants handled by `py_err.rs`). -/
inductive CacheFileErr where
  | invalidMagic
  | unsupportedVersion
  | unknownEntryKind
  | entryLengthTooLarge
  | truncated
deriving DecidableEq

/-- Modelled from the spec: the fixed magic value at the head of a
`.wevtcache` file (external codec `evtx_rs::wevt_templates::wevtcache`, not
part of this repository's sources). -/
def WEVTCACHE_MAGIC : List Nat := [87, 69, 86, 84, 67, 65, 67, 72]

/-- Modelled from the spec: the supported cache-file format version. -/
def WEVTCACHE_VERSION : Nat := 1

/-- Modelled from the spec: one cache-file entry is "a one-byte kind tag, a
length field, and `length` bytes of payload"; the single defined kind ("raw
manifest blob", `EntryKind::Crim`) is tagged `1` and the length field is eight
little-endian bytes. -/
def encodeEntry (blob : List Nat) : List Nat :=
  1 :: (leBytes 8 blob.length ++ blob)

/-- Modelled from the spec: a `.wevtcache` file is the magic, the version and
the entry sequence; `WevtCacheWriter` (used by `dump_to_wevtcache_file`)
produces this layout from the cache's `resources` in order. -/
def encodeCacheFile (blobs : List (List Nat)) : List Nat :=
  WEVTCACHE_MAGIC ++ [WEVTCACHE_VERSION] ++ (blobs.map encodeEntry).flatten

/-- Modelled from the spec: the entry-reading loop of `WevtCacheReader`.
"An unrecognized kind tag, an oversized length field, or a length field
exceeding the remaining file are each `InvalidFormat` errors, never silently
skipped." -/
def decodeEntries (bytes : List Nat) : Except CacheFileErr (List (List Nat)) :=
  match bytes with
  | [] => .ok []
  | kind :: rest =>
    if kind = 1 then
      if 8 ≤ rest.length then
        let len := leVal (rest.take 8)
        let body := rest.drop 8
        if len ≤ body.length then
          match decodeEntries (body.drop len) with
          | .ok blobs => .ok (body.take len :: blobs)
          | .error e => .error e
        else .error .entryLengthTooLarge
      else .error .truncated
    else .error .unknownEntryKind
termination_by bytes.length
decreasing_by
  simp only [List.length_drop, List.length_cons]
  omega

/-- Modelled from the spec: `WevtCacheReader::open` "validates a fixed magic
number and a supported version at the head of the file; unsupported version is
a distinct error from corrupt magic", then the entries follow. -/
def decodeCacheFile (bytes : List Nat) : Except CacheFileErr (List (List Nat)) :=
  if bytes.take 8 = WEVTCACHE_MAGIC then
    match bytes.drop 8 with
    | v :: rest =>
      if v = WEVTCACHE_VERSION then decodeEntries rest
      else .error .unsupportedVersion
    | [] => .error .truncated
  else .error .invalidMagic

/-- How `py_err.rs` maps `WevtCacheFileError` variants to Python exceptions:
format errors become `ValueError`, I/O errors become `IOError`. -/
def cacheFileErrToPy : CacheFileErr → PyException
  | .invalidMagic => ⟨.valueError, "invalid magic"⟩
  | .unsupportedVersion => ⟨.valueError, "unsupported version"⟩
  | .unknownEntryKind => ⟨.valueError, "unknown entry kind"⟩
  | .entryLengthTooLarge => ⟨.valueError, "entry length too large"⟩
  | .truncated => ⟨.ioError, "unexpected end of file"⟩

/-- A filesystem snapshot: the byte content stored at each path, if any. -/
def FileSys : Type := String → Option (List Nat)

/-- The final `/`-separated component of a path string
(Rust `Path::file_name`). -/
def pathFileName (p : String) : String :=
  String.mk (((splitOnChar '/' p.data).getLast?).getD [])

/-- Rust `Path::extension` on a file name: the part after the last `.`,
absent when there is no `.` or when the only `.` starts the name. -/
def fileExtensionOf (name : String) : Option String :=
  match splitOnChar '.' name.data with
  | [] => none
  | [_] => none
  | first :: rest =>
    if first = [] ∧ rest.length = 1 then none
    else (rest.getLast?).map String.mk

/-- Rust `Path::extension` of a full path string. -/
def pathExt (p : String) : Option String :=
  fileExtensionOf (pathFileName p)

/-- `PyWevtCache::dump`: reject a path whose extension is not exactly
`wevtcache`; otherwise create the file (failing if it exists and `overwrite`
is `false`, per `WevtCacheWriter::create`) and write every retained resource
in order.  Returns the updated filesystem on success. -/
def dump (c : PyWevtCache) (path : String) (overwrite : Bool) (fs : FileSys) :
    Except PyException FileSys :=
  if pathExt path ≠ some "wevtcache" then
    .error ⟨.valueError, "expected a .wevtcache file"⟩
  else if (fs path).isSome ∧ overwrite = false then
    .error ⟨.valueError, "output file already exists"⟩
  else
    .ok (fun q => if q = path then some (encodeCacheFile c.resources) else fs q)

/-- `PyWevtCache::load`: reject a path whose extension is not exactly
`wevtcache`; otherwise read the file, decode its entries and ingest every
`Crim` blob in file order into a fresh cache. -/
def load (parseCrim : List Nat → Except String CrimManifest) (path : String)
    (fs : FileSys) : Except PyException PyWevtCache :=
  if pathExt path ≠ some "wevtcache" then
    .error ⟨.valueError, "expected a .wevtcache file"⟩
  else
    match fs path with
    | none => .error ⟨.fileNotFoundError, "no such file"⟩
    | some bytes =>
      match decodeCacheFile bytes with
      | .error e => .error (cacheFileErrToPy e)
      | .ok blobs =>
        match ingestAll parseCrim PyWevtCache.new blobs with
        | (c, .ok ()) => .ok c
        | (_, .error e) => .error e

/-! ## Directory traversal (`add_dir`, `collect_input_paths`, `should_keep_file`) -/

/-- A filesystem node for the directory walk: a regular file, or a directory
holding named child nodes. -/
inductive FsNode where
  | file : FsNode
  | dir : List (String × FsNode) → FsNode

/-- What the `add_dir` input path resolves to: nothing, a regular file, or a
directory (with its path and its entries). -/
inductive FsInput where
  | missing : FsInput
  | file : List String → FsInput
  | dir : List String → List (String × FsNode) → FsInput

/-- Trim surrounding whitespace from a character list (Rust `str::trim`). -/
def trimL (cs : List Char) : List Char :=
  ((cs.dropWhile Char.isWhitespace).reverse.dropWhile Char.isWhitespace).reverse

/-- The extension allow-list construction in `add_dir`: split on commas, trim
whitespace, strip leading dots, lowercase, and drop empty items. -/
def parseExtList (extensions : String) : List String :=
  (((splitOnChar ',' extensions.data).map
    (fun s => toLowerL ((trimL s).dropWhile (fun ch => ch = '.')))).filter
    (fun s => ¬ s = [])).map String.mk

/-- The file name (last component) of a component path. -/
def fileNameOfPath (p : List String) : String :=
  (p.getLast?).getD ""

/-- `should_keep_file`: a file is kept when it has an extension and its
lowercased extension is in the allow-list. -/
def should_keep_file (p : List String) (allowed : List String) : Bool :=
  match fileExtensionOf (fileNameOfPath p) with
  | none => false
  | some ext => allowed.contains (lowerStr ext)

/-- The number of nodes in an entry list; the decreasing measure of the
breadth-first walk. -/
def entriesWeight : List (String × FsNode) → Nat
  | [] => 0
  | (_, .file) :: rest => 1 + entriesWeight rest
  | (_, .dir sub) :: rest => 1 + entriesWeight sub + entriesWeight rest

/-- Total weight of a breadth-first queue. -/
def queueWeight : List (List String × List (String × FsNode)) → Nat
  | [] => 0
  | (_, es) :: rest => 1 + entriesWeight es + queueWeight rest

/-- Processing of one directory's entry listing inside `collect_input_paths`:
subdirectories are pushed to the back of the queue when `recursive` is set,
and files are kept when `should_keep_file` accepts them and their path was not
seen before.  Returns the queue, the seen set and the output list. -/
def processDirEntries (dirPath : List String) (entries : List (String × FsNode))
    (recursive : Bool) (allowed : List String)
    (queue : List (List String × List (String × FsNode)))
    (seen : List (List String)) (out : List (List String)) :
    List (List String × List (String × FsNode)) × List (List String) × List (List String) :=
  match entries with
  | [] => (queue, seen, out)
  | (name, node) :: rest =>
    let p := dirPath ++ [name]
    match node with
    | .dir sub =>
      processDirEntries dirPath rest recursive allowed
        (if recursive then queue ++ [(p, sub)] else queue) seen out
    | .file =>
      if should_keep_file p allowed ∧ ¬ seen.contains p then
        processDirEntries dirPath rest recursive allowed queue (p :: seen) (out ++ [p])
      else
        processDirEntries dirPath rest recursive allowed queue seen out

theorem queueWeight_append (q1 q2 : List (List String × List (String × FsNode))) :
    queueWeight (q1 ++ q2) = queueWeight q1 + queueWeight q2 := by
  induction q1 with
  | nil => simp [queueWeight]
  | cons h t ih =>
    obtain ⟨dp, es⟩ := h
    simp [queueWeight, ih]
    omega

theorem processDirEntries_queueWeight (dirPath : List String)
    (entries : List (String × FsNode)) (recursive : Bool) (allowed : List String)
    (queue : List (List String × List (String × FsNode)))
    (seen : List (List String)) (out : List (List String)) :
    queueWeight (processDirEntries dirPath entries recursive allowed queue seen out).1 ≤
      queueWeight queue + entriesWeight entries := by
  induction entries generalizing queue seen out with
  | nil => simp [processDirEntries, entriesWeight]
  | cons h t ih =>
    obtain ⟨name, node⟩ := h
    cases node with
    | dir sub =>
      simp only [processDirEntries, entriesWeight]
      by_cases hr : recursive = true
      · rw [if_pos hr]
        have := ih (queue ++ [(dirPath ++ [name], sub)]) seen out
        simp only [queueWeight_append, queueWeight] at this
        omega
      · rw [if_neg hr]
        have := ih queue seen out
        omega
    | file =>
      simp only [processDirEntries, entriesWeight]
      by_cases hk : should_keep_file (dirPath ++ [name]) allowed ∧
          ¬ (seen.contains (dirPath ++ [name]) = true)
      · rw [if_pos hk]
        have := ih queue ((dirPath ++ [name]) :: seen) (out ++ [dirPath ++ [name]])
        omega
      · rw [if_neg hk]
        have := ih queue seen out
        omega

theorem collect_queue_decreasing (recursive : Bool) (allowed : List String)
    (dirPath : List String) (entries : List (String × FsNode))
    (rest : List (List String × List (String × FsNode)))
    (seen : List (List String)) (out : List (List String)) :
    queueWeight (processDirEntries dirPath entries recursive allowed rest seen out).1 <
      queueWeight ((dirPath, entries) :: rest) := by
  have := processDirEntries_queueWeight dirPath entries recursive allowed rest seen out
  simp only [queueWeight]
  omega

/-- The breadth-first queue loop of `collect_input_paths`: pop the front
directory, process its listing, continue until the queue is empty.  Returns
the final seen set and output list. -/
def collectLoop (recursive : Bool) (allowed : List String)
    (queue : List (List String × List (String × FsNode)))
    (seen : List (List String)) (out : List (List String)) :
    List (List String) × List (List String) :=
  match queue with
  | [] => (seen, out)
  | (dirPath, entries) :: rest =>
    collectLoop recursive allowed
      (processDirEntries dirPath entries recursive allowed rest seen out).1
      (processDirEntries dirPath entries recursive allowed rest seen out).2.1
      (processDirEntries dirPath entries recursive allowed rest seen out).2.2
termination_by queueWeight queue
decreasing_by
  apply collect_queue_decreasing

/-- `collect_input_paths`: a missing input yields no files; a regular file is
pushed unconditionally (the fresh seen set cannot contain it); a directory
seeds the breadth-first queue. -/
def collect_input_paths (input : FsInput) (recursive : Bool)
    (allowed : List String) : List (List String) :=
  match input with
  | .missing => []
  | .file p => [p]
  | .dir p entries => (collectLoop recursive allowed [(p, entries)] [] []).2

/-- Lexicographic comparison of component paths, modelling the `PathBuf`
ordering used by `files.sort()` in `add_dir`. -/
def pathLe : List String → List String → Bool
  | [], _ => true
  | _ :: _, [] => false
  | a :: as, b :: bs => if a < b then true else if a = b then pathLe as bs else false

/-- The list of files `add_dir` ingests (in order): collect the input paths,
then sort them. -/
def add_dir_files (input : FsInput) (recursive : Bool)
    (extensions : Option String) : List (List String) :=
  let allowed := parseExtList (extensions.getD "exe,dll,sys")
  (collect_input_paths input recursive allowed).insertionSort
    (fun a b => pathLe a b = true)

/-! ## Rendering pipeline (`render_record_xml`, `Template.to_xml`) -/

/-- `resolve_ansi_codec`: an explicitly named codec must be among the known
encodings (`encodings()` is external, so the known set is a parameter), else a
`PyValueError`; an absent codec falls back to the parser default. -/
def resolve_ansi_codec (knownCodecs : List String) (ansi_codec : Option String) :
    Except PyException String :=
  match ansi_codec with
  | some codec =>
    if knownCodecs.contains codec then .ok codec
    else .error ⟨.valueError, "Unknown encoding, see help for possible values"⟩
  | none => .ok "windows-1252"

instance exceptDecEq (α β : Type) [DecidableEq α] [DecidableEq β] :
    DecidableEq (Except α β) := fun x y =>
  match x, y with
  | .ok a, .ok b =>
    if h : a = b then isTrue (by rw [h]) else isFalse (by intro he; cases he; exact h rfl)
  | .error a, .error b =>
    if h : a = b then isTrue (by rw [h]) else isFalse (by intro he; cases he; exact h rfl)
  | .ok _, .error _ => isFalse (by intro he; cases he)
  | .error _, .ok _ => isFalse (by intro he; cases he)

/-- One EVTX record as yielded by the external chunk parser: its record id
and its template-instance value lists (`record.template_instances()`, which
may itself fail).  Substitution values are opaque tokens. -/
structure EvtxRecord where
  event_record_id : Nat
  template_instances : Except String (List (List Nat))
deriving DecidableEq

/-- An EVTX input source as seen through the external parser: the result of
constructing the parser, then the chunk sequence; each chunk parses to a
sequence of record results. -/
structure EvtxSource where
  init : Except String Unit
  chunks : List (Except String (List (Except String EvtxRecord)))
deriving DecidableEq

/-- The body of `render_record_xml` once a matching record is found: extract
the template instance at the requested index, look the template bytes up and
render. -/
def handleFoundRecord (render : List Nat → List Nat → String → Except String String)
    (c : PyWevtCache) (codec : String) (tguid : String)
    (template_instance_index : Nat) (record : EvtxRecord) : Except PyException String :=
  match record.template_instances with
  | .error e => .error ⟨.runtimeError, e⟩
  | .ok instances =>
    match instances[template_instance_index]? with
    | none => .error ⟨.valueError,
        "Record " ++ toString record.event_record_id ++
        " has no TemplateInstance at index " ++ toString template_instance_index⟩
    | some values =>
      match c.temps_by_guid.lookup tguid with
      | none => .error ⟨.keyError, "template GUID " ++ tguid ++ " not found"⟩
      | some temp =>
        match render temp values codec with
        | .ok xml => .ok xml
        | .error e => .error ⟨.runtimeError, e⟩

/-- The record loop inside one chunk: a failed record aborts; a record whose
id differs is skipped; the first record with the requested id is handled and
its result returned.  `none` means the chunk was exhausted without a match. -/
def scanRecords (render : List Nat → List Nat → String → Except String String)
    (c : PyWevtCache) (codec : String) (tguid : String) (record_id : Nat)
    (template_instance_index : Nat) (records : List (Except String EvtxRecord)) :
    Option (Except PyException String) :=
  match records with
  | [] => none
  | .error e :: _ => some (.error ⟨.runtimeError, e⟩)
  | .ok record :: rest =>
    if record.event_record_id = record_id then
      some (handleFoundRecord render c codec tguid template_instance_index record)
    else
      scanRecords render c codec tguid record_id template_instance_index rest

/-- The chunk loop of `render_record_xml`: a failed chunk aborts; otherwise
the chunk's records are scanned; when every chunk is exhausted without a
match the record id is reported as not found. -/
def scanChunks (render : List Nat → List Nat → String → Except String String)
    (c : PyWevtCache) (codec : String) (tguid : String) (record_id : Nat)
    (template_instance_index : Nat)
    (chunks : List (Except String (List (Except String EvtxRecord)))) :
    Except PyException String :=
  match chunks with
  | [] => .error ⟨.valueError, "Record " ++ toString record_id ++ " not found"⟩
  | .error e :: _ => .error ⟨.runtimeError, e⟩
  | .ok records :: rest =>
    match scanRecords render c codec tguid record_id template_instance_index records with
    | some r => r
    | none => scanChunks render c codec tguid record_id template_instance_index rest

/-- `PyWevtCache::render_record_xml`: resolve the ANSI codec, then the
template GUID (explicit GUID, else the full `(provider, event id, version)`
triple, else a `PyValueError`), and only then open and scan the input
source. -/
def render_record_xml (knownCodecs : List String)
    (render : List Nat → List Nat → String → Except String String)
    (c : PyWevtCache) (source : EvtxSource) (record_id : Nat)
    (template_instance_index : Nat) (template_guid provider_guid : Option String)
    (event_id version : Option Nat) (ansi_codec : Option String) :
    Except PyException String :=
  match resolve_ansi_codec knownCodecs ansi_codec with
  | .error e => .error e
  | .ok codec =>
    let tguidRes : Except PyException String :=
      match template_guid with
      | some g => .ok (normalize_guid g)
      | none =>
        match provider_guid, event_id, version with
        | some pg, some eid, some ver =>
          match c.event_to_template_guid.lookup (normalize_guid pg, eid, ver) with
          | some g => .ok g
          | none => .error ⟨.keyError,
              "No template_guid found for provider_guid=" ++ pg ++
              " event_id=" ++ toString eid ++ " version=" ++ toString ver⟩
        | _, _, _ => .error ⟨.valueError,
            "Must provide template_guid, or (provider_guid, event_id, version)"⟩
    match tguidRes with
    | .error e => .error e
    | .ok tguid =>
      match source.init with
      | .error e => .error ⟨.runtimeError, e⟩
      | .ok _ =>
        scanChunks render c codec tguid record_id template_instance_index source.chunks

/-- The owned template of `src/wevt_manifest.rs` (`TemplateOwned`): byte
offset and size into the owning manifest's buffer, and its normalized GUID. -/
structure TemplateOwned where
  offset : Nat
  size : Nat
  identifier : String
deriving DecidableEq

/-- `PyWevtTemplate::to_xml`: resolve the codec, bounds-check the TEMP byte
range against the owning manifest's buffer (a `PyRuntimeError` when it
overruns, never a panic) and delegate to the external renderer. -/
def template_to_xml (renderTemp : List Nat → String → Except String String)
    (knownCodecs : List String) (data : List Nat) (tpl : TemplateOwned)
    (ansi_codec : Option String) : Except PyException String :=
  match resolve_ansi_codec knownCodecs ansi_codec with
  | .error e => .error e
  | .ok codec =>
    let stop := satAdd tpl.offset tpl.size
    if stop > data.length then
      .error ⟨.runtimeError, "TEMP slice out of bounds while rendering template"⟩
    else
      match renderTemp (sliceBytes data tpl.offset stop) codec with
      | .ok s => .ok s
      | .error e => .error ⟨.runtimeError, e⟩

/-! ## Specification-side derived quantities -/

/-- The saturating count of a template list, threaded like the counter of
`add_crim_blob`. -/
def countTemplates : List TemplateDef → Nat → Nat
  | [], n => n
  | _ :: rest, n => countTemplates rest (satAdd n 1)

/-- The saturating template count over a provider list. -/
def countProviders : List ProviderDef → Nat → Nat
  | [], n => n
  | p :: rest, n => countProviders rest (countTemplates p.templates n)

/-- The number of templates appearing in a manifest's providers' template
tables (with the counter's saturating arithmetic). -/
def manifestTemplateCount (m : CrimManifest) : Nat :=
  countProviders m.providers 0

/-- The per-blob template count: what one blob contributes, independent of
any cache state. -/
def blobTemplateCount (parseCrim : List Nat → Except String CrimManifest)
    (b : List Nat) : Nat :=
  match parseCrim b with
  | .ok m => manifestTemplateCount m
  | .error _ => 0

/-- The saturating sum of per-blob template counts over a resource list. -/
def sumBlobCounts (parseCrim : List Nat → Except String CrimManifest) :
    List (List Nat) → Nat → Nat
  | [], acc => acc
  | b :: rest, acc => sumBlobCounts parseCrim rest (satAdd acc (blobTemplateCount parseCrim b))

/-- The bytes of the last template of a template list whose normalized GUID
is `g`, sliced from `data`; `none` when no template matches. -/
def lastSliceFor (data : List Nat) (g : String) : List TemplateDef → Option (List Nat)
  | [] => none
  | t :: rest =>
    match lastSliceFor data g rest with
    | some b => some b
    | none =>
      if normalize_guid t.guid = g then
        some (sliceBytes data t.offset (satAdd t.offset t.size))
      else none

/-- The bytes of the last template with normalized GUID `g` over a whole
provider list (later providers take priority). -/
def lastSliceInProviders (data : List Nat) (g : String) : List ProviderDef → Option (List Nat)
  | [] => none
  | p :: rest =>
    match lastSliceInProviders data g rest with
    | some b => some b
    | none => lastSliceFor data g p.templates

/-! ## Lemmas about ingestion -/

theorem processEvents_temps (provider_guid : String) (p : ProviderDef)
    (evs : List EventDef) (c : PyWevtCache) :
    (processEvents provider_guid p evs c).temps_by_guid = c.temps_by_guid := by
  induction evs generalizing c with
  | nil => rfl
  | cons ev rest ih =>
    simp only [processEvents]
    cases (ev.template_offset.bind (template_by_offset p)).map
        (fun t => normalize_guid t.guid) with
    | none => exact ih c
    | some g => exact ih _

theorem processEvents_resources (provider_guid : String) (p : ProviderDef)
    (evs : List EventDef) (c : PyWevtCache) :
    (processEvents provider_guid p evs c).resources = c.resources := by
  induction evs generalizing c with
  | nil => rfl
  | cons ev rest ih =>
    simp only [processEvents]
    cases (ev.template_offset.bind (template_by_offset p)).map
        (fun t => normalize_guid t.guid) with
    | none => exact ih c
    | some g => exact ih _

theorem processTemplates_resources (data : List Nat) (tpls : List TemplateDef)
    (c : PyWevtCache) (n : Nat) :
    (processTemplates data tpls c n).1.resources = c.resources := by
  induction tpls generalizing c n with
  | nil => rfl
  | cons t rest ih =>
    simp only [processTemplates]
    by_cases h : satAdd t.offset t.size > data.length
    · rw [if_pos h]
    · rw [if_neg h]
      exact ih _ _

theorem processProviders_resources (data : List Nat) (ps : List ProviderDef)
    (c : PyWevtCache) (n : Nat) :
    (processProviders data ps c n).1.resources = c.resources := by
  induction ps generalizing c n with
  | nil => rfl
  | cons p rest ih =>
    simp only [processProviders]
    rcases hpt : processTemplates data p.templates
        (processEvents (normalize_guid p.guid) p p.events c) n with ⟨c2, r⟩
    cases r with
    | ok n1 =>
      have h1 : c2.resources = c.resources := by
        have := processTemplates_resources data p.templates
          (processEvents (normalize_guid p.guid) p p.events c) n
        rw [hpt] at this
        rw [this, processEvents_resources]
      rw [ih c2 n1] at *
      simpa using h1
    | error e =>
      have h1 := processTemplates_resources data p.templates
        (processEvents (normalize_guid p.guid) p p.events c) n
      rw [hpt] at h1
      simpa using h1.trans (processEvents_resources (normalize_guid p.guid) p p.events c)

theorem processTemplates_count (data : List Nat) (tpls : List TemplateDef)
    (c c1 : PyWevtCache) (n n1 : Nat)
    (h : processTemplates data tpls c n = (c1, .ok n1)) :
    n1 = countTemplates tpls n := by
  induction tpls generalizing c n with
  | nil =>
    simp only [processTemplates] at h
    cases h
    rfl
  | cons t rest ih =>
    simp only [processTemplates] at h
    by_cases hb : satAdd t.offset t.size > data.length
    · rw [if_pos hb] at h
      cases h
    · rw [if_neg hb] at h
      exact ih _ _ h

theorem processProviders_count (data : List Nat) (ps : List ProviderDef)
    (c c1 : PyWevtCache) (n n1 : Nat)
    (h : processProviders data ps c n = (c1, .ok n1)) :
    n1 = countProviders ps n := by
  induction ps generalizing c n with
  | nil =>
    simp only [processProviders] at h
    cases h
    rfl
  | cons p rest ih =>
    simp only [processProviders] at h
    rcases hpt : processTemplates data p.templates
        (processEvents (normalize_guid p.guid) p p.events c) n with ⟨c2, r⟩
    rw [hpt] at h
    cases r with
    | ok k =>
      have hk := processTemplates_count data p.templates _ c2 n k hpt
      subst hk
      exact ih _ _ h
    | error e => cases h

theorem processTemplates_oob (data : List Nat) (tpls : List TemplateDef)
    (c : PyWevtCache) (n : Nat)
    (h : ∃ t ∈ tpls, satAdd t.offset t.size > data.length) :
    (processTemplates data tpls c n).2 =
      .error ⟨.runtimeError, "TEMP slice out of bounds while building cache"⟩ := by
  induction tpls generalizing c n with
  | nil => simp at h
  | cons t rest ih =>
    simp only [processTemplates]
    by_cases hb : satAdd t.offset t.size > data.length
    · rw [if_pos hb]
    · rw [if_neg hb]
      rcases h with ⟨u, hu, hub⟩
      rcases List.mem_cons.mp hu with h1 | h1
      · exact absurd (h1 ▸ hub) hb
      · exact ih _ _ ⟨u, h1, hub⟩

theorem processTemplates_inbounds (data : List Nat) (tpls : List TemplateDef)
    (c : PyWevtCache) (n : Nat)
    (h : ∀ t ∈ tpls, ¬ satAdd t.offset t.size > data.length) :
    ∃ c1 n1, processTemplates data tpls c n = (c1, .ok n1) := by
  induction tpls generalizing c n with
  | nil => exact ⟨c, n, rfl⟩
  | cons t rest ih =>
    simp only [processTemplates]
    rw [if_neg (h t (List.mem_cons_self t rest))]
    exact ih _ _ (fun u hu => h u (List.mem_cons_of_mem t hu))

theorem processProviders_oob (data : List Nat) (ps : List ProviderDef)
    (c : PyWevtCache) (n : Nat)
    (h : ∃ p ∈ ps, ∃ t ∈ p.templates, satAdd t.offset t.size > data.length) :
    (processProviders data ps c n).2 =
      .error ⟨.runtimeError, "TEMP slice out of bounds while building cache"⟩ := by
  induction ps generalizing c n with
  | nil => simp at h
  | cons p rest ih =>
    simp only [processProviders]
    by_cases hp : ∃ t ∈ p.templates, satAdd t.offset t.size > data.length
    · have := processTemplates_oob data p.templates
        (processEvents (normalize_guid p.guid) p p.events c) n hp
      rcases hpt : processTemplates data p.templates
          (processEvents (normalize_guid p.guid) p p.events c) n with ⟨c2, r⟩
      rw [hpt] at this
      simp only at this
      rw [this]
    · push_neg at hp
      rcases processTemplates_inbounds data p.templates
          (processEvents (normalize_guid p.guid) p p.events c) n
          (fun t ht => not_lt.mpr (hp t ht)) with ⟨c2, n2, hok⟩
      rw [hok]
      rcases h with ⟨q, hq, ht⟩
      rcases List.mem_cons.mp hq with h1 | h1
      · subst h1
        rcases ht with ⟨t, ht1, ht2⟩
        exact absurd ht2 (not_lt.mpr (hp t ht1))
      · exact ih _ _ ⟨q, h1, ht⟩

/-- Ingestion of a blob whose manifest declares an out-of-range template byte
range reports the bounds error. -/
theorem add_crim_blob_oob (parseCrim : List Nat → Except String CrimManifest)
    (c : PyWevtCache) (data : List Nat) (m : CrimManifest)
    (hp : parseCrim data = .ok m)
    (h : ∃ p ∈ m.providers, ∃ t ∈ p.templates, satAdd t.offset t.size > data.length) :
    (add_crim_blob parseCrim c data).2 =
      .error ⟨.runtimeError, "TEMP slice out of bounds while building cache"⟩ := by
  simp only [add_crim_blob, hp]
  exact processProviders_oob data m.providers _ 0 h

theorem add_crim_blob_count (parseCrim : List Nat → Except String CrimManifest)
    (c : PyWevtCache) (data : List Nat) (m : CrimManifest) (c1 : PyWevtCache) (n : Nat)
    (hp : parseCrim data = .ok m)
    (h : add_crim_blob parseCrim c data = (c1, .ok n)) :
    n = manifestTemplateCount m := by
  simp only [add_crim_blob, hp] at h
  exact processProviders_count data m.providers _ c1 0 n h

theorem add_pe_file_sum (parseCrim : List Nat → Except String CrimManifest)
    (c : PyWevtCache) (rs : List (List Nat)) (k : Nat) (c1 : PyWevtCache) (total : Nat)
    (h : add_pe_file_resources parseCrim c rs k = (c1, .ok total)) :
    total = sumBlobCounts parseCrim rs k := by
  induction rs generalizing c k with
  | nil =>
    simp only [add_pe_file_resources] at h
    cases h
    rfl
  | cons b rest ih =>
    simp only [add_pe_file_resources] at h
    rcases hb : add_crim_blob parseCrim c b with ⟨c2, r⟩
    rw [hb] at h
    cases r with
    | ok n =>
      have hn : n = blobTemplateCount parseCrim b := by
        rcases hp : parseCrim b with e | m
        · simp only [add_crim_blob, hp] at hb
          cases hb
        · exact (add_crim_blob_count parseCrim c b m c2 n hp hb).trans
            (by simp [blobTemplateCount, hp])
      subst hn
      simpa [sumBlobCounts] using ih _ _ h
    | error e => cases h

/-- Claim C2: a template whose declared byte range exceeds its manifest
buffer is an error on every operation that would read it, never a panic:
`add_crim_blob` (reached from `add_dll` and `load`) reports the
cache-building bounds error, and `Template.to_xml` reports the rendering
bounds error. -/
theorem template_bounds_never_panics :
    (∀ (parseCrim : List Nat → Except String CrimManifest) (c : PyWevtCache)
       (data : List Nat) (m : CrimManifest),
       parseCrim data = .ok m →
       (∃ p ∈ m.providers, ∃ t ∈ p.templates, satAdd t.offset t.size > data.length) →
       (add_crim_blob parseCrim c data).2 =
         .error ⟨.runtimeError, "TEMP slice out of bounds while building cache"⟩)
    ∧ (∀ (renderTemp : List Nat → String → Except String String)
       (knownCodecs : List String) (data : List Nat) (tpl : TemplateOwned),
       satAdd tpl.offset tpl.size > data.length →
       template_to_xml renderTemp knownCodecs data tpl none =
         .error ⟨.runtimeError, "TEMP slice out of bounds while rendering template"⟩) := by
  constructor
  · exact fun parseCrim c data m hp h => add_crim_blob_oob parseCrim c data m hp h
  · intro renderTemp knownCodecs data tpl h
    simp only [template_to_xml, resolve_ansi_codec]
    rw [if_pos h]

/-- Witness for C2 at concrete inputs: the empty buffer with a one-byte
template declared at offset 0. -/
theorem template_bounds_never_panics_witness :
    (add_crim_blob (fun _ => .ok ⟨[⟨"p", [], [⟨0, 1, "t"⟩]⟩]⟩) PyWevtCache.new []).2 =
      .error ⟨.runtimeError, "TEMP slice out of bounds while building cache"⟩
    ∧ template_to_xml (fun _ _ => .ok "xml") [] [] ⟨0, 1, "t"⟩ none =
      .error ⟨.runtimeError, "TEMP slice out of bounds while rendering template"⟩ :=
  ⟨template_bounds_never_panics.1 (fun _ => .ok ⟨[⟨"p", [], [⟨0, 1, "t"⟩]⟩]⟩)
      PyWevtCache.new [] ⟨[⟨"p", [], [⟨0, 1, "t"⟩]⟩]⟩ rfl
      ⟨⟨"p", [], [⟨0, 1, "t"⟩]⟩, by decide, ⟨0, 1, "t"⟩, by decide, by decide⟩,
    template_bounds_never_panics.2 (fun _ _ => .ok "xml") [] [] ⟨0, 1, "t"⟩ (by decide)⟩

/-- Claim C5: a successful `add_crim_blob` returns exactly the number of
templates in that one blob's providers' template tables — a quantity
independent of the cache's prior contents — and the `add_pe_file` loop
returns the saturating sum of these per-blob counts over the resources of
one file. -/
theorem ingest_count_per_blob :
    (∀ (parseCrim : List Nat → Except String CrimManifest) (c : PyWevtCache)
       (data : List Nat) (m : CrimManifest) (c1 : PyWevtCache) (n : Nat),
       parseCrim data = .ok m →
       add_crim_blob parseCrim c data = (c1, .ok n) →
       n = manifestTemplateCount m)
    ∧ (∀ (parseCrim : List Nat → Except String CrimManifest) (c : PyWevtCache)
       (rs : List (List Nat)) (c1 : PyWevtCache) (total : Nat),
       add_pe_file_resources parseCrim c rs 0 = (c1, .ok total) →
       total = sumBlobCounts parseCrim rs 0) :=
  ⟨fun parseCrim c data m c1 n hp h => add_crim_blob_count parseCrim c data m c1 n hp h,
   fun parseCrim c rs c1 total h => add_pe_file_sum parseCrim c rs 0 c1 total h⟩

/-- Witness for C5: a two-template blob ingested into a cache that already
holds a template still reports 2, and a two-resource file reports the sum. -/
theorem ingest_count_per_blob_witness :
    (2 : Nat) = manifestTemplateCount ⟨[⟨"p", [], [⟨0, 1, "t1"⟩, ⟨1, 1, "t2"⟩]⟩]⟩
    ∧ (2 : Nat) = sumBlobCounts (fun _ => .ok ⟨[⟨"p", [], [⟨0, 1, "t1"⟩]⟩]⟩) [[5], [6]] 0 :=
  ⟨ingest_count_per_blob.1 (fun _ => .ok ⟨[⟨"p", [], [⟨0, 1, "t1"⟩, ⟨1, 1, "t2"⟩]⟩]⟩)
      ⟨[], [("x", [0])], [[0]]⟩ [9, 9] ⟨[⟨"p", [], [⟨0, 1, "t1"⟩, ⟨1, 1, "t2"⟩]⟩]⟩
      (add_crim_blob (fun _ => .ok ⟨[⟨"p", [], [⟨0, 1, "t1"⟩, ⟨1, 1, "t2"⟩]⟩]⟩)
        ⟨[], [("x", [0])], [[0]]⟩ [9, 9]).1 2 rfl (by decide),
   ingest_count_per_blob.2 (fun _ => .ok ⟨[⟨"p", [], [⟨0, 1, "t1"⟩]⟩]⟩)
      PyWevtCache.new [[5], [6]]
      (add_pe_file_resources (fun _ => .ok ⟨[⟨"p", [], [⟨0, 1, "t1"⟩]⟩]⟩)
        PyWevtCache.new [[5], [6]] 0).1 2 (by decide)⟩

theorem processTemplates_lookup (data : List Nat) (tpls : List TemplateDef)
    (c c1 : PyWevtCache) (n n1 : Nat) (G : String)
    (h : processTemplates data tpls c n = (c1, .ok n1)) :
    c1.temps_by_guid.lookup G =
      match lastSliceFor data G tpls with
      | some b => some b
      | none => c.temps_by_guid.lookup G := by
  induction tpls generalizing c n with
  | nil =>
    simp only [processTemplates] at h
    cases h
    rfl
  | cons t rest ih =>
    simp only [processTemplates] at h
    by_cases hb : satAdd t.offset t.size > data.length
    · rw [if_pos hb] at h
      cases h
    · rw [if_neg hb] at h
      have := ih _ _ h
      rw [this]
      simp only [lastSliceFor]
      cases lastSliceFor data G rest with
      | some b => rfl
      | none =>
        simp only [insert_temp, List.lookup]
        by_cases hg : normalize_guid t.guid = G
        · rw [if_pos hg]
          have : (G == normalize_guid t.guid) = true := by
            simp [hg]
          rw [this]
        · rw [if_neg hg]
          have : (G == normalize_guid t.guid) = false := by
            simp [Ne.symm hg]
          rw [this]

theorem processProviders_lookup (data : List Nat) (ps : List ProviderDef)
    (c c1 : PyWevtCache) (n n1 : Nat) (G : String)
    (h : processProviders data ps c n = (c1, .ok n1)) :
    c1.temps_by_guid.lookup G =
      match lastSliceInProviders data G ps with
      | some b => some b
      | none => c.temps_by_guid.lookup G := by
  induction ps generalizing c n with
  | nil =>
    simp only [processProviders] at h
    cases h
    rfl
  | cons p rest ih =>
    simp only [processProviders] at h
    rcases hpt : processTemplates data p.templates
        (processEvents (normalize_guid p.guid) p p.events c) n with ⟨c2, r⟩
    rw [hpt] at h
    cases r with
    | ok k =>
      have h2 := processTemplates_lookup data p.templates _ c2 n k G hpt
      rw [processEvents_temps] at h2
      have h1 := ih _ _ h
      rw [h1, h2]
      simp only [lastSliceInProviders]
      cases lastSliceInProviders data G rest with
      | some b => rfl
      | none => rfl
    | error e => cases h

theorem add_crim_blob_lookup (parseCrim : List Nat → Except String CrimManifest)
    (c : PyWevtCache) (data : List Nat) (m : CrimManifest) (c1 : PyWevtCache) (n : Nat)
    (G : String) (hp : parseCrim data = .ok m)
    (h : add_crim_blob parseCrim c data = (c1, .ok n)) :
    c1.temps_by_guid.lookup G =
      match lastSliceInProviders data G m.providers with
      | some b => some b
      | none => c.temps_by_guid.lookup G := by
  simp only [add_crim_blob, hp] at h
  have h2 := processProviders_lookup data m.providers
    { c with resources := c.resources ++ [data] } c1 0 n G h
  simpa using h2

/-- Claim C3: ingesting two blobs that both define a template under the same
normalized GUID (with different bytes) leaves `template_bytes` for that GUID
equal to the bytes sliced from the blob ingested last. -/
theorem last_write_wins (parseCrim : List Nat → Except String CrimManifest)
    (blob1 blob2 : List Nat) (m1 m2 : CrimManifest) (c0 c1 c2 : PyWevtCache)
    (n1 n2 : Nat) (G : String) (b1 b2 : List Nat)
    (hp1 : parseCrim blob1 = .ok m1) (hp2 : parseCrim blob2 = .ok m2)
    (h1 : add_crim_blob parseCrim c0 blob1 = (c1, .ok n1))
    (h2 : add_crim_blob parseCrim c1 blob2 = (c2, .ok n2))
    (hg1 : lastSliceInProviders blob1 (normalize_guid G) m1.providers = some b1)
    (hg2 : lastSliceInProviders blob2 (normalize_guid G) m2.providers = some b2)
    (hne : b1 ≠ b2) :
    template_bytes c2 G = some b2 := by
  have := add_crim_blob_lookup parseCrim c1 blob2 m2 c2 n2 (normalize_guid G) hp2 h2
  rw [template_bytes, this, hg2]

/-- Witness for C3: two one-byte blobs sharing the template GUID `t`; after
ingesting `[7]` then `[9]`, the cache serves `[9]`. -/
theorem last_write_wins_witness :
    template_bytes
      (add_crim_blob (fun _ => .ok ⟨[⟨"p", [], [⟨0, 1, "t"⟩]⟩]⟩)
        (add_crim_blob (fun _ => .ok ⟨[⟨"p", [], [⟨0, 1, "t"⟩]⟩]⟩)
          PyWevtCache.new [7]).1 [9]).1 "t" = some [9] :=
  last_write_wins (fun _ => .ok ⟨[⟨"p", [], [⟨0, 1, "t"⟩]⟩]⟩) [7] [9]
    ⟨[⟨"p", [], [⟨0, 1, "t"⟩]⟩]⟩ ⟨[⟨"p", [], [⟨0, 1, "t"⟩]⟩]⟩
    PyWevtCache.new
    (add_crim_blob (fun _ => .ok ⟨[⟨"p", [], [⟨0, 1, "t"⟩]⟩]⟩) PyWevtCache.new [7]).1
    (add_crim_blob (fun _ => .ok ⟨[⟨"p", [], [⟨0, 1, "t"⟩]⟩]⟩)
      (add_crim_blob (fun _ => .ok ⟨[⟨"p", [], [⟨0, 1, "t"⟩]⟩]⟩) PyWevtCache.new [7]).1 [9]).1
    1 1 "t" [7] [9] rfl rfl (by decide) (by decide) (by decide) (by decide) (by decide)

theorem stripBracesL_wrap (l : List Char) :
    stripBracesL ('\x7b' :: (l ++ ['\x7d'])) = l := by
  simp [stripBracesL, List.getLast?_concat, List.dropLast_concat]

theorem normalize_guid_wrap (g : String) :
    normalize_guid ("\x7b" ++ g ++ "\x7d") = lowerStr g := by
  have hdata : ("\x7b" ++ g ++ "\x7d").data = '\x7b' :: (g.data ++ ['\x7d']) := by
    simp [String.data_append]
  simp only [normalize_guid, lowerStr, hdata, stripBracesL_wrap]

/-- Claim C4: two textual GUIDs with the same normalization (in particular a
braced uppercase spelling and a plain lowercase spelling, by the second
conjunct) are interchangeable as `resolve_template_guid` lookup keys: the
index lookup is identical and the calls succeed with the same value. -/
theorem guid_case_brace_insensitive :
    (∀ (c : PyWevtCache) (eid ver : Nat) (g1 g2 : String),
       normalize_guid g1 = normalize_guid g2 →
       c.event_to_template_guid.lookup (normalize_guid g1, eid, ver)
         = c.event_to_template_guid.lookup (normalize_guid g2, eid, ver)
       ∧ ∀ v, (resolve_template_guid c g1 eid ver = .ok v ↔
           resolve_template_guid c g2 eid ver = .ok v))
    ∧ ∀ g : String, normalize_guid ("\x7b" ++ g ++ "\x7d") = lowerStr g := by
  constructor
  · intro c eid ver g1 g2 h
    constructor
    · rw [h]
    · intro v
      simp only [resolve_template_guid, h]
      cases hl : List.lookup (normalize_guid g2, eid, ver) c.event_to_template_guid with
      | some g => exact Iff.rfl
      | none => simp
  · exact normalize_guid_wrap

/-- Witness for C4: the spec's concrete pair — braces and uppercase hex
against bare lowercase hex — resolves identically on a one-entry index. -/
theorem guid_case_brace_insensitive_witness :
    resolve_template_guid
        ⟨[(("aaaaaaaa-bbbb-cccc-dddd-eeeeeeeeeeee", 1, 0), "t")], [], []⟩
        "\x7bAAAAAAAA-BBBB-CCCC-DDDD-EEEEEEEEEEEE\x7d" 1 0 = .ok "t" ↔
      resolve_template_guid
        ⟨[(("aaaaaaaa-bbbb-cccc-dddd-eeeeeeeeeeee", 1, 0), "t")], [], []⟩
        "aaaaaaaa-bbbb-cccc-dddd-eeeeeeeeeeee" 1 0 = .ok "t" :=
  (guid_case_brace_insensitive.1
      ⟨[(("aaaaaaaa-bbbb-cccc-dddd-eeeeeeeeeeee", 1, 0), "t")], [], []⟩ 1 0
      "\x7bAAAAAAAA-BBBB-CCCC-DDDD-EEEEEEEEEEEE\x7d"
      "aaaaaaaa-bbbb-cccc-dddd-eeeeeeeeeeee" (by decide)).2 "t"

/-- Claim C9: `load` and `dump` refuse any path whose extension is not
exactly (case-sensitively) `wevtcache` with a `ValueError`, uniformly in the
filesystem — so before any file is opened, read or created — and `dump`
leaves the filesystem unchanged (an `error` result carries no filesystem). -/
theorem wevtcache_ext_required (path : String)
    (hext : pathExt path ≠ some "wevtcache") :
    (∀ (parseCrim : List Nat → Except String CrimManifest) (fs : FileSys),
       load parseCrim path fs = .error ⟨.valueError, "expected a .wevtcache file"⟩)
    ∧ (∀ (c : PyWevtCache) (overwrite : Bool) (fs : FileSys),
       dump c path overwrite fs = .error ⟨.valueError, "expected a .wevtcache file"⟩) := by
  constructor
  · intro parseCrim fs
    simp only [load]
    rw [if_pos hext]
  · intro c overwrite fs
    simp only [dump]
    rw [if_pos hext]

/-- Witness for C9: the uppercase spelling `cache.WEVTCACHE` is refused by
both operations. -/
theorem wevtcache_ext_required_witness :
    load (fun _ => .error "") "cache.WEVTCACHE" (fun _ => none) =
      .error ⟨.valueError, "expected a .wevtcache file"⟩
    ∧ dump PyWevtCache.new "cache.WEVTCACHE" true (fun _ => none) =
      .error ⟨.valueError, "expected a .wevtcache file"⟩ :=
  ⟨(wevtcache_ext_required "cache.WEVTCACHE" (by decide)).1 (fun _ => .error "") (fun _ => none),
   (wevtcache_ext_required "cache.WEVTCACHE" (by decide)).2 PyWevtCache.new true (fun _ => none)⟩

/-- Claim C10: when the `add_dir` input path is a regular file, that single
file is ingested exactly once, for every recursion flag and every extension
allow-list (the extension filter applies only inside directories). -/
theorem add_dir_single_file (p : List String) (recursive : Bool)
    (extensions : Option String) :
    add_dir_files (.file p) recursive extensions = [p] := by
  simp [add_dir_files, collect_input_paths, List.insertionSort]

theorem resolve_ansi_codec_error_cls (knownCodecs : List String)
    (ansi_codec : Option String) (e : PyException)
    (h : resolve_ansi_codec knownCodecs ansi_codec = .error e) :
    e.cls = .valueError := by
  cases ansi_codec with
  | none => simp [resolve_ansi_codec] at h
  | some codec =>
    simp only [resolve_ansi_codec] at h
    by_cases hc : knownCodecs.contains codec = true
    · rw [if_pos hc] at h
      cases h
    · rw [if_neg hc] at h
      cases h
      rfl

theorem render_record_xml_missing_selector_eq (knownCodecs : List String)
    (render : List Nat → List Nat → String → Except String String)
    (c : PyWevtCache) (source : EvtxSource) (record_id tii : Nat)
    (provider_guid : Option String) (event_id version : Option Nat)
    (ansi_codec : Option String)
    (hmiss : provider_guid = none ∨ event_id = none ∨ version = none) :
    render_record_xml knownCodecs render c source record_id tii none
        provider_guid event_id version ansi_codec =
      match resolve_ansi_codec knownCodecs ansi_codec with
      | .error e => .error e
      | .ok _ => .error ⟨.valueError,
          "Must provide template_guid, or (provider_guid, event_id, version)"⟩ := by
  cases hra : resolve_ansi_codec knownCodecs ansi_codec with
  | error e => simp [render_record_xml, hra]
  | ok codec =>
    rcases hmiss with h | h | h
    · subst h
      cases event_id <;> cases version <;> simp [render_record_xml, hra]
    · subst h
      cases provider_guid <;> cases version <;> simp [render_record_xml, hra]
    · subst h
      cases provider_guid <;> cases event_id <;> simp [render_record_xml, hra]

/-- Claim C7: with no explicit template GUID and an incomplete
`(provider_guid, event_id, version)` triple, `render_record_xml` fails with a
`ValueError` (the spec's `InvalidArgument` class) whose value does not depend
on the input source — the source is never opened or read. -/
theorem render_record_missing_selector (knownCodecs : List String)
    (render : List Nat → List Nat → String → Except String String)
    (c : PyWevtCache) (record_id tii : Nat)
    (provider_guid : Option String) (event_id version : Option Nat)
    (ansi_codec : Option String)
    (hmiss : provider_guid = none ∨ event_id = none ∨ version = none) :
    ∀ source source' : EvtxSource,
      render_record_xml knownCodecs render c source record_id tii none
          provider_guid event_id version ansi_codec
        = render_record_xml knownCodecs render c source' record_id tii none
          provider_guid event_id version ansi_codec
      ∧ ∃ e : PyException,
        render_record_xml knownCodecs render c source record_id tii none
            provider_guid event_id version ansi_codec = .error e
          ∧ e.cls = .valueError := by
  intro source source'
  have h1 := render_record_xml_missing_selector_eq knownCodecs render c source
    record_id tii provider_guid event_id version ansi_codec hmiss
  have h2 := render_record_xml_missing_selector_eq knownCodecs render c source'
    record_id tii provider_guid event_id version ansi_codec hmiss
  refine ⟨h1.trans h2.symm, ?_⟩
  cases hra : resolve_ansi_codec knownCodecs ansi_codec with
  | error e =>
    refine ⟨e, ?_, resolve_ansi_codec_error_cls knownCodecs ansi_codec e hra⟩
    rw [h1, hra]
  | ok codec =>
    refine ⟨⟨.valueError,
      "Must provide template_guid, or (provider_guid, event_id, version)"⟩, ?_, rfl⟩
    rw [h1, hra]

/-- Witness for C7: a missing `version` with two different sources — the
same `ValueError` either way. -/
theorem render_record_missing_selector_witness :
    render_record_xml [] (fun _ _ _ => .error "") PyWevtCache.new
        ⟨.ok (), []⟩ 42 0 none (some "p") (some 1) none none
      = render_record_xml [] (fun _ _ _ => .error "") PyWevtCache.new
        ⟨.error "bad", [.error "worse"]⟩ 42 0 none (some "p") (some 1) none none
    ∧ ∃ e : PyException,
      render_record_xml [] (fun _ _ _ => .error "") PyWevtCache.new
          ⟨.ok (), []⟩ 42 0 none (some "p") (some 1) none none = .error e
        ∧ e.cls = .valueError :=
  render_record_missing_selector [] (fun _ _ _ => .error "") PyWevtCache.new
    42 0 (some "p") (some 1) none none (Or.inr (Or.inr rfl))
    ⟨.ok (), []⟩ ⟨.error "bad", [.error "worse"]⟩

theorem scanRecords_none (render : List Nat → List Nat → String → Except String String)
    (c : PyWevtCache) (codec tguid : String) (record_id tii : Nat)
    (records : List (Except String EvtxRecord))
    (h : ∀ rr ∈ records, ∃ rec, rr = Except.ok rec ∧ rec.event_record_id ≠ record_id) :
    scanRecords render c codec tguid record_id tii records = none := by
  induction records with
  | nil => rfl
  | cons rr rest ih =>
    rcases h rr (List.mem_cons_self rr rest) with ⟨rec, hr, hne⟩
    subst hr
    simp only [scanRecords]
    rw [if_neg hne]
    exact ih (fun x hx => h x (List.mem_cons_of_mem _ hx))

theorem scanChunks_not_found (render : List Nat → List Nat → String → Except String String)
    (c : PyWevtCache) (codec tguid : String) (record_id tii : Nat)
    (chunks : List (Except String (List (Except String EvtxRecord))))
    (h : ∀ ch ∈ chunks, ∃ recs, ch = Except.ok recs ∧
      ∀ rr ∈ recs, ∃ rec, rr = Except.ok rec ∧ rec.event_record_id ≠ record_id) :
    scanChunks render c codec tguid record_id tii chunks =
      .error ⟨.valueError, "Record " ++ toString record_id ++ " not found"⟩ := by
  induction chunks with
  | nil => rfl
  | cons ch rest ih =>
    rcases h ch (List.mem_cons_self ch rest) with ⟨recs, hr, hrecs⟩
    subst hr
    simp only [scanChunks]
    rw [scanRecords_none render c codec tguid record_id tii recs hrecs]
    exact ih (fun x hx => h x (List.mem_cons_of_mem _ hx))

/-- Claim C8: when the parser opens and every chunk and record of the source
parses but no record carries the requested record id, `render_record_xml`
scans the whole source and fails with the absent-record error — the error the
spec's taxonomy files under `NotFound` — rather than succeeding or failing
differently. -/
theorem render_record_not_found (render : List Nat → List Nat → String → Except String String)
    (knownCodecs : List String) (c : PyWevtCache) (source : EvtxSource)
    (record_id tii : Nat) (g : String)
    (provider_guid : Option String) (event_id version : Option Nat)
    (hinit : source.init = .ok ())
    (hnomatch : ∀ ch ∈ source.chunks, ∃ recs, ch = Except.ok recs ∧
      ∀ rr ∈ recs, ∃ rec, rr = Except.ok rec ∧ rec.event_record_id ≠ record_id) :
    render_record_xml knownCodecs render c source record_id tii (some g)
        provider_guid event_id version none =
      .error ⟨.valueError, "Record " ++ toString record_id ++ " not found"⟩ := by
  simp only [render_record_xml, resolve_ansi_codec, hinit]
  exact scanChunks_not_found render c "windows-1252" (normalize_guid g)
    record_id tii source.chunks hnomatch

/-- Witness for C8: one chunk holding one well-formed record with id 1,
scanned for id 2. -/
theorem render_record_not_found_witness :
    render_record_xml [] (fun _ _ _ => .ok "xml") PyWevtCache.new
        ⟨.ok (), [.ok [.ok ⟨1, .ok [[]]⟩]]⟩ 2 0 (some "t") none none none none =
      .error ⟨.valueError, "Record " ++ toString 2 ++ " not found"⟩ :=
  render_record_not_found (fun _ _ _ => .ok "xml") [] PyWevtCache.new
    ⟨.ok (), [.ok [.ok ⟨1, .ok [[]]⟩]]⟩ 2 0 "t" none none none rfl
    (by
      intro ch hch
      simp only [List.mem_singleton] at hch
      subst hch
      refine ⟨[.ok ⟨1, .ok [[]]⟩], rfl, ?_⟩
      intro rr hrr
      simp only [List.mem_singleton] at hrr
      subst hrr
      exact ⟨⟨1, .ok [[]]⟩, rfl, by decide⟩)

theorem leBytes_length (k n : Nat) : (leBytes k n).length = k := by
  induction k generalizing n with
  | zero => rfl
  | succ k ih => simp [leBytes, ih]

theorem leVal_leBytes (k n : Nat) : leVal (leBytes k n) = n % 256 ^ k := by
  induction k generalizing n with
  | zero => simp [leBytes, leVal, Nat.mod_one]
  | succ k ih =>
    rw [leBytes, leVal, ih, pow_succ']
    exact (Nat.mod_mul).symm

theorem add_crim_blob_resources (parseCrim : List Nat → Except String CrimManifest)
    (c : PyWevtCache) (data : List Nat) (c1 : PyWevtCache) (n : Nat)
    (h : add_crim_blob parseCrim c data = (c1, .ok n)) :
    c1.resources = c.resources ++ [data] := by
  rcases hp : parseCrim data with e | m
  · simp only [add_crim_blob, hp] at h
    cases h
  · simp only [add_crim_blob, hp] at h
    have := processProviders_resources data m.providers
      { c with resources := c.resources ++ [data] } 0
    rw [h] at this
    simpa using this

theorem ingestAll_resources (parseCrim : List Nat → Except String CrimManifest)
    (c : PyWevtCache) (blobs : List (List Nat))
    (h : (ingestAll parseCrim c blobs).2 = .ok ()) :
    (ingestAll parseCrim c blobs).1.resources = c.resources ++ blobs := by
  induction blobs generalizing c with
  | nil => simp [ingestAll]
  | cons b rest ih =>
    simp only [ingestAll] at h ⊢
    rcases hb : add_crim_blob parseCrim c b with ⟨c2, r⟩
    rw [hb] at h
    cases r with
    | ok n =>
      simp only at h ⊢
      have h2 := ih c2 h
      rw [h2, add_crim_blob_resources parseCrim c b c2 n hb]
      simp
    | error e => simp at h

theorem decodeEntries_encode (blobs : List (List Nat))
    (hlen : ∀ b ∈ blobs, b.length < 2 ^ 64) :
    decodeEntries ((blobs.map encodeEntry).flatten) = .ok blobs := by
  induction blobs with
  | nil => simp [decodeEntries]
  | cons b rest ih =>
    have hb : b.length < 256 ^ 8 := by
      have := hlen b (List.mem_cons_self b rest)
      norm_num at this ⊢
      exact this
    have hrest := ih (fun x hx => hlen x (List.mem_cons_of_mem _ hx))
    have hflat : ((b :: rest).map encodeEntry).flatten =
        1 :: (leBytes 8 b.length ++ (b ++ (rest.map encodeEntry).flatten)) := by
      simp [encodeEntry, List.append_assoc]
    rw [hflat]
    simp only [decodeEntries, if_pos rfl]
    have h8 : 8 ≤ (leBytes 8 b.length ++ (b ++ (rest.map encodeEntry).flatten)).length := by
      simp [leBytes_length]
    rw [if_pos h8]
    have htake : (leBytes 8 b.length ++ (b ++ (rest.map encodeEntry).flatten)).take 8 =
        leBytes 8 b.length := List.take_left' (leBytes_length 8 b.length)
    have hdrop : (leBytes 8 b.length ++ (b ++ (rest.map encodeEntry).flatten)).drop 8 =
        b ++ (rest.map encodeEntry).flatten := List.drop_left' (leBytes_length 8 b.length)
    simp only [htake, hdrop, leVal_leBytes, Nat.mod_eq_of_lt hb]
    rw [if_pos (by simp : b.length ≤ (b ++ (rest.map encodeEntry).flatten).length)]
    rw [List.drop_left, List.take_left, hrest]
    simp

theorem decodeCacheFile_encode (blobs : List (List Nat))
    (hlen : ∀ b ∈ blobs, b.length < 2 ^ 64) :
    decodeCacheFile (encodeCacheFile blobs) = .ok blobs := by
  have hm : WEVTCACHE_MAGIC.length = 8 := by decide
  have h1 : (WEVTCACHE_MAGIC ++ ([WEVTCACHE_VERSION] ++ (blobs.map encodeEntry).flatten)).take 8 =
      WEVTCACHE_MAGIC := List.take_left' hm
  have h2 : (WEVTCACHE_MAGIC ++ ([WEVTCACHE_VERSION] ++ (blobs.map encodeEntry).flatten)).drop 8 =
      [WEVTCACHE_VERSION] ++ (blobs.map encodeEntry).flatten := List.drop_left' hm
  simp only [decodeCacheFile, encodeCacheFile, List.append_assoc, h1, h2, if_pos rfl]
  simp only [List.singleton_append, if_pos rfl]
  exact decodeEntries_encode blobs hlen

/-- Claim C1: a cache built by successfully ingesting blobs B₁…Bₙ, dumped to
a `.wevtcache` path and loaded back, yields a cache whose
`resolve_template_guid` and `template_bytes` results agree with the original
on every key. -/
theorem dump_load_round_trip (parseCrim : List Nat → Except String CrimManifest)
    (blobs : List (List Nat)) (path : String) (fs : FileSys) (overwrite : Bool)
    (hing : (ingestAll parseCrim PyWevtCache.new blobs).2 = .ok ())
    (hext : pathExt path = some "wevtcache")
    (hfree : fs path = none ∨ overwrite = true)
    (hlen : ∀ b ∈ blobs, b.length < 2 ^ 64) :
    ∃ fs' : FileSys,
      dump (ingestAll parseCrim PyWevtCache.new blobs).1 path overwrite fs = .ok fs'
      ∧ load parseCrim path fs' = .ok (ingestAll parseCrim PyWevtCache.new blobs).1
      ∧ ∀ c' : PyWevtCache, load parseCrim path fs' = .ok c' →
          (∀ (pg : String) (eid ver : Nat),
            resolve_template_guid c' pg eid ver =
              resolve_template_guid (ingestAll parseCrim PyWevtCache.new blobs).1 pg eid ver)
          ∧ ∀ g : String,
            template_bytes c' g =
              template_bytes (ingestAll parseCrim PyWevtCache.new blobs).1 g := by
  have hnotneq : ¬ pathExt path ≠ some "wevtcache" := by simp [hext]
  have hres : (ingestAll parseCrim PyWevtCache.new blobs).1.resources = blobs := by
    simpa [PyWevtCache.new] using ingestAll_resources parseCrim PyWevtCache.new blobs hing
  rcases hia : ingestAll parseCrim PyWevtCache.new blobs with ⟨cfin, r⟩
  have hr : r = .ok () := by rw [hia] at hing; simpa using hing
  subst hr
  rw [hia] at hres
  simp only at hres
  simp only
  have hdump : dump cfin path overwrite fs =
      .ok (fun q => if q = path then some (encodeCacheFile cfin.resources) else fs q) := by
    simp only [dump]
    rw [if_neg hnotneq]
    rcases hfree with hf | hf
    · rw [if_neg (by simp [hf])]
    · rw [if_neg (by simp [hf])]
  have hload : load parseCrim path
      (fun q => if q = path then some (encodeCacheFile cfin.resources) else fs q) =
      .ok cfin := by
    simp only [load]
    rw [if_neg hnotneq]
    simp only [if_true]
    rw [hres, decodeCacheFile_encode blobs hlen]
    simp [hia]
  refine ⟨fun q => if q = path then some (encodeCacheFile cfin.resources) else fs q,
    hdump, hload, ?_⟩
  intro c' hc'
  rw [hload] at hc'
  cases hc'
  exact ⟨fun pg eid ver => rfl, fun g => rfl⟩

/-- Witness for C1: two concrete one-template blobs, dumped to
`out.wevtcache` on an empty filesystem and loaded back. -/
theorem dump_load_round_trip_witness :
    ∃ fs' : FileSys,
      dump (ingestAll (fun _ => .ok ⟨[⟨"p", [], [⟨0, 1, "t"⟩]⟩]⟩)
          PyWevtCache.new [[7], [9]]).1 "out.wevtcache" false (fun _ => none) = .ok fs'
      ∧ load (fun _ => .ok ⟨[⟨"p", [], [⟨0, 1, "t"⟩]⟩]⟩) "out.wevtcache" fs' =
          .ok (ingestAll (fun _ => .ok ⟨[⟨"p", [], [⟨0, 1, "t"⟩]⟩]⟩)
            PyWevtCache.new [[7], [9]]).1
      ∧ ∀ c' : PyWevtCache,
          load (fun _ => .ok ⟨[⟨"p", [], [⟨0, 1, "t"⟩]⟩]⟩) "out.wevtcache" fs' = .ok c' →
          (∀ (pg : String) (eid ver : Nat),
            resolve_template_guid c' pg eid ver =
              resolve_template_guid (ingestAll (fun _ => .ok ⟨[⟨"p", [], [⟨0, 1, "t"⟩]⟩]⟩)
                PyWevtCache.new [[7], [9]]).1 pg eid ver)
          ∧ ∀ g : String,
            template_bytes c' g =
              template_bytes (ingestAll (fun _ => .ok ⟨[⟨"p", [], [⟨0, 1, "t"⟩]⟩]⟩)
                PyWevtCache.new [[7], [9]]).1 g :=
  dump_load_round_trip (fun _ => .ok ⟨[⟨"p", [], [⟨0, 1, "t"⟩]⟩]⟩) [[7], [9]]
    "out.wevtcache" (fun _ => none) false (by decide) (by decide) (Or.inl rfl) (by decide)

/-! ## Directory-walk characterization -/

/-- The paths of the regular files directly inside one directory listing. -/
def topFiles (dirPath : List String) : List (String × FsNode) → List (List String)
  | [] => []
  | (name, .file) :: rest => (dirPath ++ [name]) :: topFiles dirPath rest
  | (_, .dir _) :: rest => topFiles dirPath rest

/-- The subdirectories (path and listing) directly inside one listing. -/
def subDirsOf (dirPath : List String) : List (String × FsNode) →
    List (List String × List (String × FsNode))
  | [] => []
  | (_, .file) :: rest => subDirsOf dirPath rest
  | (name, .dir sub) :: rest => (dirPath ++ [name], sub) :: subDirsOf dirPath rest

/-- All regular-file paths in the whole tree under a directory listing. -/
def filesUnder (dirPath : List String) : List (String × FsNode) → List (List String)
  | [] => []
  | (name, .file) :: rest => (dirPath ++ [name]) :: filesUnder dirPath rest
  | (name, .dir sub) :: rest =>
    filesUnder (dirPath ++ [name]) sub ++ filesUnder dirPath rest

/-- The file paths a queue can still reach: the whole subtree when the walk
is recursive, only each queued directory's own files otherwise. -/
def queueFilesR (r : Bool) : List (List String × List (String × FsNode)) → List (List String)
  | [] => []
  | (dp, es) :: rest => (if r then filesUnder dp es else topFiles dp es) ++ queueFilesR r rest

theorem processDirEntries_queue (dirPath : List String) (entries : List (String × FsNode))
    (r : Bool) (allowed : List String)
    (q : List (List String × List (String × FsNode)))
    (seen out : List (List String)) :
    (processDirEntries dirPath entries r allowed q seen out).1 =
      q ++ (if r then subDirsOf dirPath entries else []) := by
  induction entries generalizing q seen out with
  | nil => cases r <;> simp [processDirEntries, subDirsOf]
  | cons h t ih =>
    obtain ⟨name, node⟩ := h
    cases node with
    | dir sub =>
      simp only [processDirEntries]
      by_cases hr : r = true
      · rw [if_pos hr, ih]
        simp [hr, subDirsOf]
      · rw [if_neg hr, ih]
        simp only [Bool.not_eq_true] at hr
        simp [hr, subDirsOf]
    | file =>
      simp only [processDirEntries]
      by_cases hk : should_keep_file (dirPath ++ [name]) allowed = true ∧
          ¬ (seen.contains (dirPath ++ [name]) = true)
      · rw [if_pos hk, ih]
        simp [subDirsOf]
      · rw [if_neg hk, ih]
        simp [subDirsOf]

theorem processDirEntries_seen_mem (dirPath : List String)
    (entries : List (String × FsNode)) (r : Bool) (allowed : List String)
    (q : List (List String × List (String × FsNode)))
    (seen out : List (List String)) (x : List String) :
    x ∈ (processDirEntries dirPath entries r allowed q seen out).2.1 ↔
      x ∈ seen ∨ (x ∈ topFiles dirPath entries ∧ should_keep_file x allowed = true) := by
  induction entries generalizing q seen out with
  | nil => simp [processDirEntries, topFiles]
  | cons h t ih =>
    obtain ⟨name, node⟩ := h
    cases node with
    | dir sub =>
      simp only [processDirEntries, topFiles]
      rw [ih]
    | file =>
      simp only [processDirEntries, topFiles]
      by_cases hk : should_keep_file (dirPath ++ [name]) allowed = true ∧
          ¬ (seen.contains (dirPath ++ [name]) = true)
      · rw [if_pos hk, ih]
        by_cases hx : x = dirPath ++ [name]
        · subst hx
          simp [hk.1]
        · simp only [List.mem_cons, hx, false_or]
      · rw [if_neg hk, ih]
        by_cases hx : x = dirPath ++ [name]
        · subst hx
          rcases Classical.em (should_keep_file (dirPath ++ [name]) allowed = true)
            with hkeep | hkeep
          · have hseen : (dirPath ++ [name]) ∈ seen := by
              by_contra hns
              exact hk ⟨hkeep, by simpa using hns⟩
            simp [hseen]
          · simp [hkeep]
        · simp only [List.mem_cons, hx, false_or]

theorem processDirEntries_out_mem (dirPath : List String)
    (entries : List (String × FsNode)) (r : Bool) (allowed : List String)
    (q : List (List String × List (String × FsNode)))
    (seen out : List (List String)) (x : List String) :
    x ∈ (processDirEntries dirPath entries r allowed q seen out).2.2 ↔
      x ∈ out ∨ (x ∈ topFiles dirPath entries ∧ should_keep_file x allowed = true
        ∧ x ∉ seen) := by
  induction entries generalizing q seen out with
  | nil => simp [processDirEntries, topFiles]
  | cons h t ih =>
    obtain ⟨name, node⟩ := h
    cases node with
    | dir sub =>
      simp only [processDirEntries, topFiles]
      rw [ih]
    | file =>
      simp only [processDirEntries, topFiles]
      by_cases hk : should_keep_file (dirPath ++ [name]) allowed = true ∧
          ¬ (seen.contains (dirPath ++ [name]) = true)
      · rw [if_pos hk, ih]
        have hns : (dirPath ++ [name]) ∉ seen := by
          have := hk.2
          simpa using this
        by_cases hx : x = dirPath ++ [name]
        · subst hx
          simp [hk.1, hns]
        · have hmem : x ∈ out ++ [dirPath ++ [name]] ↔ x ∈ out := by simp [hx]
          have hseen2 : (x ∉ (dirPath ++ [name]) :: seen) ↔ x ∉ seen := by
            simp [List.mem_cons, hx]
          rw [hmem, hseen2]
          simp [List.mem_cons, hx]
      · rw [if_neg hk, ih]
        by_cases hx : x = dirPath ++ [name]
        · subst hx
          rcases Classical.em (should_keep_file (dirPath ++ [name]) allowed = true)
            with hkeep | hkeep
          · have hseen : (dirPath ++ [name]) ∈ seen := by
              by_contra hns
              exact hk ⟨hkeep, by simpa using hns⟩
            simp [hseen]
          · simp [hkeep]
        · simp only [List.mem_cons, hx, false_or]

theorem processDirEntries_inv (dirPath : List String)
    (entries : List (String × FsNode)) (r : Bool) (allowed : List String)
    (q : List (List String × List (String × FsNode)))
    (seen out : List (List String))
    (hnd : out.Nodup) (hsub : ∀ x ∈ out, x ∈ seen) :
    (processDirEntries dirPath entries r allowed q seen out).2.2.Nodup
    ∧ ∀ x ∈ (processDirEntries dirPath entries r allowed q seen out).2.2,
        x ∈ (processDirEntries dirPath entries r allowed q seen out).2.1 := by
  induction entries generalizing q seen out with
  | nil => exact ⟨hnd, hsub⟩
  | cons h t ih =>
    obtain ⟨name, node⟩ := h
    cases node with
    | dir sub =>
      simp only [processDirEntries]
      exact ih _ _ _ hnd hsub
    | file =>
      simp only [processDirEntries]
      by_cases hk : should_keep_file (dirPath ++ [name]) allowed = true ∧
          ¬ (seen.contains (dirPath ++ [name]) = true)
      · rw [if_pos hk]
        have hns : (dirPath ++ [name]) ∉ seen := by
          have := hk.2
          simpa using this
        refine ih _ _ _ ?_ ?_
        · simp only [List.nodup_append, List.nodup_singleton, true_and]
          exact ⟨hnd, by
            intro a ha hb
            rcases List.mem_singleton.mp hb with rfl
            exact hns (hsub _ ha)⟩
        · intro x hx
          rcases List.mem_append.mp hx with h1 | h1
          · exact List.mem_cons_of_mem _ (hsub x h1)
          · rcases List.mem_singleton.mp h1 with rfl
            exact List.mem_cons_self _ _
      · rw [if_neg hk]
        exact ih _ _ _ hnd hsub

theorem mem_filesUnder_iff (dirPath : List String) (entries : List (String × FsNode))
    (x : List String) :
    x ∈ filesUnder dirPath entries ↔
      x ∈ topFiles dirPath entries ∨ x ∈ queueFilesR true (subDirsOf dirPath entries) := by
  induction entries with
  | nil => simp [filesUnder, topFiles, subDirsOf, queueFilesR]
  | cons h t ih =>
    obtain ⟨name, node⟩ := h
    cases node with
    | file =>
      simp only [filesUnder, topFiles, subDirsOf, List.mem_cons, ih]
      tauto
    | dir sub =>
      simp only [filesUnder, topFiles, subDirsOf, queueFilesR, List.mem_append, ih,
        if_true]
      tauto

theorem queueFilesR_append (r : Bool)
    (q1 q2 : List (List String × List (String × FsNode))) :
    queueFilesR r (q1 ++ q2) = queueFilesR r q1 ++ queueFilesR r q2 := by
  induction q1 with
  | nil => simp [queueFilesR]
  | cons h t ih =>
    obtain ⟨dp, es⟩ := h
    simp [queueFilesR, ih]

theorem collectLoop_out_mem (r : Bool) (allowed : List String)
    (q : List (List String × List (String × FsNode)))
    (seen out : List (List String)) (x : List String) :
    x ∈ (collectLoop r allowed q seen out).2 ↔
      x ∈ out ∨ (x ∈ queueFilesR r q ∧ should_keep_file x allowed = true ∧ x ∉ seen) := by
  induction q, seen, out using collectLoop.induct r allowed with
  | case1 seen out => simp [collectLoop, queueFilesR]
  | case2 seen out dirPath entries rest ih =>
    rw [collectLoop]
    rw [ih]
    rw [processDirEntries_out_mem, processDirEntries_seen_mem, processDirEntries_queue,
      queueFilesR_append]
    simp only [queueFilesR, List.mem_append]
    cases r with
    | false =>
      simp only [if_neg (Bool.false_ne_true), queueFilesR, List.append_nil]
      tauto
    | true =>
      simp only [if_true, mem_filesUnder_iff dirPath entries x, List.mem_append]
      have hsub : queueFilesR true (subDirsOf dirPath entries) ++ [] =
          queueFilesR true (subDirsOf dirPath entries) := List.append_nil _
      tauto

theorem collectLoop_nodup (r : Bool) (allowed : List String)
    (q : List (List String × List (String × FsNode)))
    (seen out : List (List String)) :
    out.Nodup → (∀ x ∈ out, x ∈ seen) → (collectLoop r allowed q seen out).2.Nodup := by
  induction q, seen, out using collectLoop.induct r allowed with
  | case1 seen out =>
    intro hnd _
    rw [collectLoop]
    exact hnd
  | case2 seen out dirPath entries rest ih =>
    intro hnd hsub
    rw [collectLoop]
    exact ih (processDirEntries_inv dirPath entries r allowed rest seen out hnd hsub).1
      (processDirEntries_inv dirPath entries r allowed rest seen out hnd hsub).2

theorem mem_topFiles (dirPath : List String) (entries : List (String × FsNode))
    (x : List String) :
    x ∈ topFiles dirPath entries ↔
      ∃ name, (name, FsNode.file) ∈ entries ∧ x = dirPath ++ [name] := by
  induction entries with
  | nil => simp [topFiles]
  | cons h t ih =>
    obtain ⟨name, node⟩ := h
    cases node with
    | file =>
      simp only [topFiles, List.mem_cons, ih, Prod.mk.injEq]
      constructor
      · rintro (rfl | ⟨n, hn, rfl⟩)
        · exact ⟨name, Or.inl ⟨rfl, trivial⟩, rfl⟩
        · exact ⟨n, Or.inr hn, rfl⟩
      · rintro ⟨n, hn, rfl⟩
        rcases hn with ⟨rfl, -⟩ | hn
        · exact Or.inl rfl
        · exact Or.inr ⟨n, hn, rfl⟩
    | dir sub =>
      simp only [topFiles, List.mem_cons, ih, Prod.mk.injEq]
      constructor
      · rintro ⟨n, hn, rfl⟩
        exact ⟨n, Or.inr hn, rfl⟩
      · rintro ⟨n, hn, rfl⟩
        rcases hn with ⟨rfl, hctor⟩ | hn
        · cases hctor
        · exact ⟨n, hn, rfl⟩

theorem should_keep_dll (x : List String) :
    should_keep_file x ["dll"] = true ↔
      ∃ e, fileExtensionOf (fileNameOfPath x) = some e ∧ lowerStr e = "dll" := by
  simp only [should_keep_file]
  cases he : fileExtensionOf (fileNameOfPath x) with
  | none => simp
  | some e =>
    simp only [List.contains, List.elem_eq_mem, List.mem_singleton, decide_eq_true_eq,
      Option.some.injEq]
    constructor
    · intro h
      exact ⟨e, rfl, h⟩
    · rintro ⟨e', rfl, h⟩
      exact h

theorem fileNameOfPath_concat (p : List String) (name : String) :
    fileNameOfPath (p ++ [name]) = name := by
  simp [fileNameOfPath, List.getLast?_concat]

/-- Claim C6: `add_dir(path, recursive := false, extensions := "dll")` on a
directory ingests exactly its top-level regular files whose extension
lowercases to `dll`, each exactly once; with `recursive := true` it ingests
exactly the matching files of the whole tree, each exactly once even when a
path is listed more than once; and a missing input path yields no files. -/
theorem add_dir_extension_filtering :
    (∀ (p : List String) (es : List (String × FsNode)) (q : List String),
       (q ∈ add_dir_files (.dir p es) false (some "dll") ↔
         ∃ name, (name, FsNode.file) ∈ es ∧ q = p ++ [name] ∧
           ∃ e, fileExtensionOf name = some e ∧ lowerStr e = "dll")
       ∧ (add_dir_files (.dir p es) false (some "dll")).Nodup)
    ∧ (∀ (p : List String) (es : List (String × FsNode)) (q : List String),
       (q ∈ add_dir_files (.dir p es) true (some "dll") ↔
         q ∈ filesUnder p es ∧ should_keep_file q ["dll"] = true)
       ∧ (add_dir_files (.dir p es) true (some "dll")).Nodup)
    ∧ ∀ (recursive : Bool) (extensions : Option String),
       add_dir_files .missing recursive extensions = [] := by
  have hext : parseExtList "dll" = ["dll"] := by decide
  have hmem : ∀ (r : Bool) (p : List String) (es : List (String × FsNode)) (q : List String),
      q ∈ add_dir_files (.dir p es) r (some "dll") ↔
        (q ∈ (if r then filesUnder p es else topFiles p es) ∧
          should_keep_file q ["dll"] = true) := by
    intro r p es q
    simp only [add_dir_files, Option.getD, hext, collect_input_paths]
    rw [(List.perm_insertionSort _ _).mem_iff, collectLoop_out_mem]
    simp [queueFilesR]
  have hnd : ∀ (r : Bool) (p : List String) (es : List (String × FsNode)),
      (add_dir_files (.dir p es) r (some "dll")).Nodup := by
    intro r p es
    simp only [add_dir_files, Option.getD, hext, collect_input_paths]
    exact ((List.perm_insertionSort _ _).nodup_iff).mpr
      (collectLoop_nodup r ["dll"] [(p, es)] [] [] List.nodup_nil (by simp))
  refine ⟨?_, ?_, ?_⟩
  · intro p es q
    refine ⟨?_, hnd false p es⟩
    rw [hmem false p es q]
    simp only [if_neg (Bool.false_ne_true), mem_topFiles]
    constructor
    · rintro ⟨⟨name, hn, rfl⟩, hkeep⟩
      rcases (should_keep_dll _).mp hkeep with ⟨e, he, hl⟩
      rw [fileNameOfPath_concat] at he
      exact ⟨name, hn, rfl, e, he, hl⟩
    · rintro ⟨name, hn, rfl, e, he, hl⟩
      refine ⟨⟨name, hn, rfl⟩, (should_keep_dll _).mpr ⟨e, ?_, hl⟩⟩
      rw [fileNameOfPath_concat]
      exact he
  · intro p es q
    refine ⟨?_, hnd true p es⟩
    rw [hmem true p es q]
    simp
  · intro recursive extensions
    simp [add_dir_files, collect_input_paths, List.insertionSort]

end Spec2Proof
